import Mathlib

/-!
Verification of the per-iteration path-tracing pipeline in src/pathtrace.cu.

The development shallowly embeds the kernels and the host-side depth loop of
pathtrace.cu over exact rationals.  Machine floats are embedded as rationals
(the comparison logic of the code depends only on the ordered-field structure),
CUDA kernels over index ranges become list transformations, and the two
thrust calls used by the code (remove_if with a stencil, sort_by_key) are
embedded through their documented semantics.  Code of the repository that is
referenced but lives in headers outside pathtrace.cu (utilhash, the primitive
intersection tests, scatterRay, Geom.update, the thrust engine internals) is
either taken as a parameter or modelled from the specification, as noted on
each definition.
-/

namespace PT

/-- Embedding of glm::vec3 with exact rational components. -/
structure Vec3 where
  x : ℚ
  y : ℚ
  z : ℚ
deriving DecidableEq

/-- The zero vector, also the state left by cudaMemset 0. -/
def Vec3.zero : Vec3 := ⟨0, 0, 0⟩

/-- The all-ones color white, the initial path throughput. -/
def Vec3.one : Vec3 := ⟨1, 1, 1⟩

/-- Componentwise addition, embedding glm vector +. -/
def Vec3.add (a b : Vec3) : Vec3 := ⟨a.x + b.x, a.y + b.y, a.z + b.z⟩

/-- Componentwise multiplication, embedding glm vector *. -/
def Vec3.mul (a b : Vec3) : Vec3 := ⟨a.x * b.x, a.y * b.y, a.z * b.z⟩

/-- Scalar multiplication, embedding glm vector * scalar. -/
def Vec3.smul (s : ℚ) (a : Vec3) : Vec3 := ⟨s * a.x, s * a.y, s * a.z⟩

/-- Channel read, embedding operator[] of glm::vec3. -/
def Vec3.get (v : Vec3) : Nat → ℚ
  | 0 => v.x
  | 1 => v.y
  | _ => v.z

/-- Channel write, embedding assignment to operator[] of glm::vec3. -/
def Vec3.chset (v : Vec3) : Nat → ℚ → Vec3
  | 0, q => ⟨q, v.y, v.z⟩
  | 1, q => ⟨v.x, q, v.z⟩
  | _, q => ⟨v.x, v.y, q⟩

/-- Embedding of Ray from sceneStructs: origin and direction. -/
structure Ray where
  origin : Vec3
  direction : Vec3
deriving DecidableEq

/-- Embedding of PathSegment: ray, accumulated throughput color, the
originating pixel index, and the remaining bounce budget (a C int). -/
structure PathSegment where
  ray : Ray
  color : Vec3
  pixelIndex : Nat
  remainingBounces : Int
deriving DecidableEq

/-- Embedding of ShadeableIntersection: parametric hit distance t (negative
sentinel -1 means no hit), surface normal, and material identifier. -/
structure ShadeableIntersection where
  t : ℚ
  surfaceNormal : Vec3
  materialId : Nat
deriving DecidableEq

/-- Embedding of the per-channel dispersion data of Material: a flag and
three per-channel indices of refraction. -/
structure Dispersion where
  hasDispersion : Bool
  ior0 : ℚ
  ior1 : ℚ
  ior2 : ℚ
deriving DecidableEq

/-- Channel read on the three dispersion indices of refraction,
embedding indexOfRefraction[c]. -/
def Dispersion.iorAt (d : Dispersion) : Nat → ℚ
  | 0 => d.ior0
  | 1 => d.ior1
  | _ => d.ior2

/-- Embedding of Material: the fields read by shadeFakeMaterial. -/
structure Material where
  color : Vec3
  emittance : ℚ
  hasReflective : Bool
  hasRefractive : Bool
  indexOfRefraction : ℚ
  dispersion : Dispersion
  roughness : ℚ
deriving DecidableEq

/-- Embedding of the closed set of primitive type tags. -/
inductive GeomType where
  | CUBE : GeomType
  | SPHERE : GeomType
deriving DecidableEq

/-- Embedding of Geom: type tag, material reference, and the mutable
transform state.  Per section 3 of the spec a primitive carries a transform
that the time-parameterized update rule mutates in place (sceneStructs.h is
not under src); the translation component carried here is what the
parametrized update rule and primitive tests may read and write. -/
structure Geom where
  type : GeomType
  materialid : Nat
  translation : Vec3
deriving DecidableEq

/-- Default path record used for out-of-range reads. -/
def pathDefault : PathSegment :=
  ⟨⟨Vec3.zero, Vec3.zero⟩, Vec3.zero, 0, 0⟩

/-- Default intersection record: the all-zero state left by cudaMemset. -/
def isecDefault : ShadeableIntersection := ⟨0, Vec3.zero, 0⟩

/-- Default material used for out-of-range reads. -/
def materialDefault : Material :=
  ⟨Vec3.zero, 0, false, false, 1, ⟨false, 1, 1, 1⟩, 0⟩

/-- Default geometry record used for out-of-range reads. -/
def geomDefault : Geom := ⟨GeomType.CUBE, 0, Vec3.zero⟩

/-- Embedding of thrust remove_if over a boolean stencil with the
logical_not predicate, as invoked at lines 519-535 of pathtrace.cu: the
element at position i survives exactly when the stencil at position i is
true; thrust documents remove_if as stable, so survivors keep their
relative order.  The two arrays have equal length at every call site. -/
def removeIfNot {α : Type} : List α → List Bool → List α
  | [], _ => []
  | _ :: _, [] => []
  | x :: xs, b :: bs => if b then x :: removeIfNot xs bs else removeIfNot xs bs

/-- The exact value of FLT_MAX, the initial value of t_min in
computeIntersections (line 266); this numeral is (2 pow 24 - 1) times
2 pow 104. -/
def fltMax : ℚ := (340282346638528859811704183484516925440 : ℚ)

/-- Default primitive-test outcome used for out-of-range reads. -/
def hitDefault : ℚ × Vec3 := (0, Vec3.zero)

/-- The scan over the geometry list inside computeIntersections
(lines 275-298): the state is the running (t_min, hit_geom_index, normal),
the next primitive with test outcome (t, normal) replaces the state exactly
when t is greater than 0 and strictly below the running t_min, so the first
primitive attaining the minimum positive distance is kept.  The Nat argument
is the list index of the next primitive. -/
def selectHit : Nat → ℚ → Int → Vec3 → List (ℚ × Vec3) → ℚ × Int × Vec3
  | _, tmin, hitIdx, nrm, [] => (tmin, hitIdx, nrm)
  | i, tmin, hitIdx, nrm, (t, n) :: rest =>
    if 0 < t ∧ t < tmin then selectHit (i + 1) t (Int.ofNat i) n rest
    else selectHit (i + 1) tmin hitIdx nrm rest

/-- One thread of computeIntersections (lines 256-313).  The primitive test
dispatched on the type tag (boxIntersectionTest and sphereIntersectionTest
live in intersections.h, outside pathtrace.cu) is taken as the parameter ht,
returning the parametric distance and the tentative surface normal.  When no
primitive is hit the record keeps the cudaMemset zeros except t set to the
sentinel -1, and the stencil flag is false; otherwise the record carries the
retained distance, normal, and the material id of the hit primitive, and the
flag is true. -/
def computeIntersectionOne (geoms : List Geom) (ht : Geom → Ray → ℚ × Vec3)
    (r : Ray) : ShadeableIntersection × Bool :=
  let res := selectHit 0 fltMax (-1) Vec3.zero (geoms.map (fun g => ht g r))
  if res.2.1 = -1 then ({ t := -1, surfaceNormal := Vec3.zero, materialId := 0 }, false)
  else
    ({ t := res.1, surfaceNormal := res.2.2,
       materialId := (geoms.getD res.2.1.toNat geomDefault).materialid }, true)

/-- The modulus of 32-bit unsigned arithmetic. -/
def U32 : Nat := 2 ^ 32

/-- Modelled from the spec: utilhash is declared in utilities.h, which is
not under src; section 4.1 of the spec asks for a deterministic
multiplicative/XOR hash over the packed inputs.  The theorems below depend
only on which inputs are packed into the argument, not on the mixing. -/
def utilhash (a : Nat) : Nat :=
  let b := (a % U32) * 2654435761 % U32
  let c := Nat.xor b (b / 2 ^ 15)
  let d := c * 2246822519 % U32
  Nat.xor d (d / 2 ^ 13) % U32

/-- Embedding of makeSeededRandomEngine (lines 54-59): the engine seed is
utilhash((1 shl 31) or (depth shl 22) or iter) xor utilhash(index), in
32-bit unsigned arithmetic. -/
def makeSeededRandomEngineSeed (iter index depth : Nat) : Nat :=
  Nat.xor
    (utilhash (Nat.lor (Nat.lor (2 ^ 31) ((depth * 2 ^ 22) % U32)) (iter % U32)))
    (utilhash index)

/-- The seed of the random stream that shadeFakeMaterial uses for the
scattering decision of the path at position idx of the compacted array,
while the depth loop is at loopDepth.  Line 340 of pathtrace.cu invokes
makeSeededRandomEngine(iter, idx, 0): the depth argument is the literal 0,
so the loop depth does not enter the seed. -/
def shadeRngSeed (iter idx : Nat) (_loopDepth : Nat) : Nat :=
  makeSeededRandomEngineSeed iter idx 0

/-- Embedding of the seed computed inside updateGeoms (line 425):
utilhash((1 shl 31) or iter) xor utilhash(index).  The kernel receives only
the iteration index and the thread index of the primitive; the depth of the
surrounding loop is not an input. -/
def updateGeomSeed (iter index : Nat) : Nat :=
  Nat.xor (utilhash (Nat.lor (2 ^ 31) (iter % U32))) (utilhash index)

/-- Modelled from the spec: the first draw of a thrust
uniform_real_distribution(0,1) on a freshly constructed engine; the engine
internals are not under src.  Any deterministic function of the seed is
faithful to section 4.1 of the spec. -/
def u01 (seed : Nat) : ℚ := (seed % 2 ^ 24 : ℚ) / 2 ^ 24

/-- The random time offset dT drawn by updateGeoms (line 428) for the
primitive at a given index: the first uniform draw from the engine seeded by
updateGeomSeed, scaled by the exposure window. -/
def geomDT (iter index : Nat) (exposure : ℚ) : ℚ :=
  u01 (updateGeomSeed iter index) * exposure

/-- The body of updateGeoms mapped over the geometry list from a given
starting index: each primitive receives upd applied with its own dT.  The
time-parameterized update rule Geom.update lives in sceneStructs.h, outside
pathtrace.cu, and is taken as the parameter upd. -/
def updateGeomsFrom (upd : Geom → ℚ → Geom) (iter : Nat) (exposure : ℚ) :
    Nat → List Geom → List Geom
  | _, [] => []
  | i, g :: gs =>
    upd g (geomDT iter i exposure) :: updateGeomsFrom upd iter exposure (i + 1) gs

/-- One launch of updateGeoms inside the depth loop (line 502), at a given
loop depth.  The launch passes only iter to the kernel, so the recorded
depth is not consumed. -/
def updateGeomsPass (upd : Geom → ℚ → Geom) (iter : Nat) (_depth : Nat)
    (exposure : ℚ) (geoms : List Geom) : List Geom :=
  updateGeomsFrom upd iter exposure 0 geoms

/-- n successive launches of updateGeoms within one render iteration, one
per pass of the depth loop, threading the mutated geometry list. -/
def runGeomPasses (upd : Geom → ℚ → Geom) (iter : Nat) (exposure : ℚ) :
    Nat → List Geom → List Geom
  | 0, gs => gs
  | n + 1, gs =>
    runGeomPasses upd iter exposure n (updateGeomsPass upd iter n exposure gs)

/-- The n-fold application of the update rule with one fixed dT per
primitive index: the reference shape for runGeomPasses. -/
def foldedUpdate (upd : Geom → ℚ → Geom) (iter : Nat) (exposure : ℚ)
    (n : Nat) : Nat → List Geom → List Geom
  | _, [] => []
  | i, g :: gs =>
    Nat.iterate (fun x => upd x (geomDT iter i exposure)) n g ::
      foldedUpdate upd iter exposure n (i + 1) gs

/-- The effective color restriction of the dispersion branch of
shadeFakeMaterial (lines 360-364): m_color starts at (0,0,0) and channel
(iter mod 3) is set to 1.4 times that channel of the base color. -/
def dispersionColor (mc : Vec3) (iter : Nat) : Vec3 :=
  Vec3.chset Vec3.zero (iter % 3) ((14 / 10 : ℚ) * mc.get (iter % 3))

/-- The effective (index of refraction, color) pair resolved by
shadeFakeMaterial (lines 359-370): with per-channel dispersion, channel
(iter mod 3) selects the index of refraction and the restricted color;
otherwise the single index of refraction and the full base color. -/
def effectiveIorColor (m : Material) (iter : Nat) : ℚ × Vec3 :=
  if m.dispersion.hasDispersion then
    (m.dispersion.iorAt (iter % 3), dispersionColor m.color iter)
  else (m.indexOfRefraction, m.color)

/-- The type of the scatter step: scatterRay lives in interactions.h,
outside pathtrace.cu, and is taken as a parameter.  Its inputs mirror the
call at lines 373-382: the rng seed, hit point, surface normal, reflective
and refractive flags, effective index of refraction, effective color,
roughness, and the path to rewrite. -/
def ScatterFn : Type :=
  Nat → Vec3 → Vec3 → Bool → Bool → ℚ → Vec3 → ℚ → PathSegment → PathSegment

/-- One thread of shadeFakeMaterial for idx below num_paths
(lines 333-388): a path with exhausted bounce budget is returned untouched;
a hit on an emissive material multiplies the throughput by
(material color times emittance) and zeroes the bounce budget; otherwise the
hit point and effective optical data are computed and the scatter step
rewrites the path. -/
def shadeOne (sc : ScatterFn) (materials : List Material) (iter idx : Nat)
    (isec : ShadeableIntersection) (p : PathSegment) : PathSegment :=
  if p.remainingBounces = 0 then p
  else
    let m := materials.getD isec.materialId materialDefault
    if 0 < m.emittance then
      { p with color := p.color.mul (m.color.smul m.emittance),
               remainingBounces := 0 }
    else
      let point := p.ray.origin.add (p.ray.direction.smul isec.t)
      let ic := effectiveIorColor m iter
      sc (makeSeededRandomEngineSeed iter idx 0) point isec.surfaceNormal
        m.hasReflective m.hasRefractive ic.1 ic.2 m.roughness p

/-- The shadeFakeMaterial launch over the compacted arrays: thread idx pairs
the intersection record and the path at the same position. -/
def shadeAll (sc : ScatterFn) (materials : List Material) (iter : Nat) :
    Nat → List ShadeableIntersection → List PathSegment → List PathSegment
  | _, _, [] => []
  | _, [], ps => ps
  | i, isec :: is, p :: ps =>
    shadeOne sc materials iter i isec p :: shadeAll sc materials iter (i + 1) is ps

/-- The state carried across passes of the depth loop: the geometry list
(mutated in place by updateGeoms) and the active prefixes of the paths and
intersections arrays. -/
structure PTState where
  geoms : List Geom
  paths : List PathSegment
  isecs : List ShadeableIntersection
deriving DecidableEq

/-- One pass of the depth loop body (lines 497-571), with SORT_BY_MATERIAL
disabled as in the committed build: geometry update, intersection of every
active path, stream compaction of both arrays under the shared intersection
stencil (which also yields the new num_paths as the surviving length), and
shading of the surviving paths. -/
def pipelinePass (ht : Geom → Ray → ℚ × Vec3) (sc : ScatterFn)
    (upd : Geom → ℚ → Geom) (materials : List Material) (exposure : ℚ)
    (iter : Nat) (depth : Nat) (st : PTState) : PTState :=
  let geoms := updateGeomsPass upd iter depth exposure st.geoms
  let results := st.paths.map (fun p => computeIntersectionOne geoms ht p.ray)
  let isecs := results.map (fun r => r.1)
  let flags := results.map (fun r => r.2)
  let isecs2 := removeIfNot isecs flags
  let paths2 := removeIfNot st.paths flags
  let paths3 := shadeAll sc materials iter 0 isecs2 paths2
  { geoms := geoms, paths := paths3, isecs := isecs2 }

/-- The control skeleton of the depth loop (lines 495-572): the body runs,
depth is incremented, and iterationComplete becomes true exactly when the
incremented depth equals traceDepth; no other condition is consulted.  The
fuel argument makes the recursion structural; any fuel of at least
traceDepth minus the starting depth reproduces the loop. -/
def runLoop {S : Type} (traceDepth : Nat) (body : Nat → S → S) :
    Nat → Nat → S → S
  | 0, _, s => s
  | fuel + 1, depth, s =>
    let s2 := body depth s
    let depth2 := depth + 1
    if depth2 = traceDepth then s2 else runLoop traceDepth body fuel depth2 s2

/-- The loop body paired with a counter of executed passes. -/
def countingBody {S : Type} (body : Nat → S → S) :
    Nat → S × Nat → S × Nat :=
  fun d sn => (body d sn.1, sn.2 + 1)

/-- The number of depth passes the loop executes from depth 0 on a given
starting state. -/
def passesRun {S : Type} (traceDepth : Nat) (body : Nat → S → S) (s : S) :
    Nat :=
  (runLoop traceDepth (countingBody body) traceDepth 0 (s, 0)).2

/-- Embedding of finalGather (lines 395-404) over the surviving path list:
each path adds its throughput color into the accumulation buffer at its
originating pixel index. -/
def finalGather (image : List Vec3) (paths : List PathSegment) : List Vec3 :=
  paths.foldl
    (fun img p => img.set p.pixelIndex ((img.getD p.pixelIndex Vec3.zero).add p.color))
    image

/-- Embedding of generateRayFromCamera (lines 194-242): one path per
pixel, throughput initialized to white, the originating pixel index, and
bounce budget traceDepth.  The ray through the (possibly jittered) pixel
sample involves float normalization of the camera basis, so it is taken as
the parameter rays, a function of the iteration number (the jitter rng is
seeded per iteration) and the pixel index. -/
def initPaths (rays : Nat → Nat → Ray) (iter traceDepth pixelcount : Nat) :
    List PathSegment :=
  (List.range pixelcount).map (fun i =>
    { ray := rays iter i, color := Vec3.one, pixelIndex := i,
      remainingBounces := (traceDepth : Int) })

/-- The parameters of a render session that stay fixed across iterations:
the parametrized primitive test, scatter step, update rule and camera rays
(their float internals live outside pathtrace.cu), the material table, the
exposure window, the trace depth, and the pixel count. -/
structure SessionParams where
  ht : Geom → Ray → ℚ × Vec3
  sc : ScatterFn
  upd : Geom → ℚ → Geom
  rays : Nat → Nat → Ray
  materials : List Material
  exposure : ℚ
  traceDepth : Nat
  pixelcount : Nat

/-- One call of pathtrace (lines 439-588) as a transformation of the
session state: ray generation creates one path per pixel, the depth loop
runs traceDepth passes of pipelinePass threading the device geometry list
(mutated in place by updateGeoms), and finalGather folds the surviving
paths into the accumulation buffer.  The mutated geometry list is returned
as part of the state: pathtrace never reloads dev_geoms, so it carries
over to the next iteration. -/
def renderIter (P : SessionParams) (iter : Nat) (g : List Geom)
    (img : List Vec3) : List Geom × List Vec3 :=
  let st := runLoop P.traceDepth
    (pipelinePass P.ht P.sc P.upd P.materials P.exposure iter)
    P.traceDepth 0
    ⟨g, initPaths P.rays iter P.traceDepth P.pixelcount,
      List.replicate P.pixelcount isecDefault⟩
  (st.geoms, finalGather img st.paths)

/-- n render iterations from iteration number start, threading the
loop-carried session state: the device geometry list and the accumulation
buffer.  Nothing ever resets or rescales the buffer (pathtrace contains no
write to dev_image other than finalGather). -/
def renderSession (P : SessionParams) :
    Nat → Nat → List Geom × List Vec3 → List Geom × List Vec3
  | _, 0, s => s
  | start, n + 1, s =>
    renderSession P (start + 1) n (renderIter P start s.1 s.2)

/-- A static session instance: the update rule returns every primitive
unchanged. -/
def staticParams : SessionParams :=
  { ht := fun _ _ => ((-1 : ℚ), Vec3.zero)
    sc := fun _ _ _ _ _ _ _ _ q => q
    upd := fun g _ => g
    rays := fun _ _ => ⟨Vec3.zero, Vec3.one⟩
    materials := []
    exposure := 0
    traceDepth := 1
    pixelcount := 1 }

/-- A session instance with a cumulatively drifting primitive, used to
analyse the resume roundtrip: the update rule shifts the translation one
unit along x per application (a time-parameterized motion rule in the sense
of section 4.6 of the spec), the primitive test hits at distance 5 while
the translation x stays at most 1 and misses afterwards, the single
material is emissive with emittance 1, and the session has one pixel and
trace depth 1. -/
def driftParams : SessionParams :=
  { ht := fun g _ =>
      (if g.translation.x ≤ 1 then (5 : ℚ) else (-1 : ℚ), Vec3.zero)
    sc := fun _ _ _ _ _ _ _ _ q => q
    upd := fun g _ =>
      { g with translation :=
          ⟨g.translation.x + 1, g.translation.y, g.translation.z⟩ }
    rays := fun _ _ => ⟨Vec3.zero, Vec3.one⟩
    materials := [⟨Vec3.one, 1, false, false, 1, ⟨false, 1, 1, 1⟩, 0⟩]
    exposure := 0
    traceDepth := 1
    pixelcount := 1 }

/-- The host-side geometry list of the drifting scene, reloaded verbatim by
pathtraceResume (lines 150-151): one primitive at the origin. -/
def driftGeoms : List Geom := [⟨GeomType.SPHERE, 0, Vec3.zero⟩]

/-- The accumulation buffer created by pathtraceInit (lines 111-112):
pixelcount color triples, zero initialized. -/
def pathtraceInitImage (pixelcount : Nat) : List Vec3 :=
  List.replicate pixelcount Vec3.zero

/-- The accumulation buffer created by pathtraceResume (lines 143-146): the
externally saved un-normalized buffer is copied in unchanged. -/
def pathtraceResumeImage (saved : List Vec3) : List Vec3 := saved

/-- The per-pixel displayed average: the accumulated buffer divided by the
iteration count, as in sendImageToPBO before clamping (lines 73-75). -/
def averagedImage (iters : Nat) (image : List Vec3) : List Vec3 :=
  image.map (Vec3.smul (1 / (iters : ℚ)))

/-- Embedding of getMaterialId (lines 406-416): every thread index below
nPaths stores isecs->materialId into both key arrays.  The source reads
through the unsubscripted pointer, so every thread reads the material id of
record 0; the stores cast to unsigned char, hence the mod 256. -/
def getMaterialId (nPaths : Nat) (isecs : List ShadeableIntersection) :
    List Nat × List Nat :=
  let id := (isecs.getD 0 isecDefault).materialId % 256
  (List.replicate nPaths id, List.replicate nPaths id)

end PT

namespace PT

theorem removeIfNot_nil {α : Type} (bs : List Bool) :
    removeIfNot (α := α) [] bs = [] := by
  cases bs <;> rfl

theorem removeIfNot_sublist {α : Type} :
    ∀ (xs : List α) (bs : List Bool), List.Sublist (removeIfNot xs bs) xs := by
  intro xs
  induction xs with
  | nil => intro bs; rw [removeIfNot_nil]
  | cons x xs ih =>
    intro bs
    cases bs with
    | nil => exact List.nil_sublist _
    | cons b bs =>
      by_cases hb : b = true
      · subst hb
        simpa [removeIfNot] using List.Sublist.cons₂ x (ih bs)
      · have hb2 : b = false := by simpa using hb
        subst hb2
        simpa [removeIfNot] using List.Sublist.cons x (ih bs)

theorem removeIfNot_length {α : Type} :
    ∀ (xs : List α) (bs : List Bool), xs.length = bs.length →
      (removeIfNot xs bs).length = bs.count true := by
  intro xs
  induction xs with
  | nil =>
    intro bs h
    have : bs = [] := by
      cases bs with
      | nil => rfl
      | cons b bs => simp at h
    subst this
    rfl
  | cons x xs ih =>
    intro bs h
    cases bs with
    | nil => simp at h
    | cons b bs =>
      have hlen : xs.length = bs.length := by simpa using h
      by_cases hb : b = true
      · subst hb
        simp [removeIfNot, ih bs hlen, List.count_cons]
      · have hb2 : b = false := by simpa using hb
        subst hb2
        simp [removeIfNot, ih bs hlen, List.count_cons]

theorem removeIfNot_zip {α β : Type} :
    ∀ (bs : List Bool) (xs : List α) (ys : List β),
      xs.length = bs.length → ys.length = bs.length →
      (removeIfNot xs bs).zip (removeIfNot ys bs) = removeIfNot (xs.zip ys) bs := by
  intro bs
  induction bs with
  | nil =>
    intro xs ys hx hy
    have hx0 : xs = [] := List.length_eq_zero.mp (by simpa using hx)
    have hy0 : ys = [] := List.length_eq_zero.mp (by simpa using hy)
    subst hx0; subst hy0; rfl
  | cons b bs ih =>
    intro xs ys hx hy
    cases xs with
    | nil => simp at hx
    | cons x xs =>
      cases ys with
      | nil => simp at hy
      | cons y ys =>
        have hx2 : xs.length = bs.length := by simpa using hx
        have hy2 : ys.length = bs.length := by simpa using hy
        by_cases hb : b = true
        · subst hb
          simp only [removeIfNot, if_true]
          rw [List.zip_cons_cons, ih xs ys hx2 hy2]
          rfl
        · have hb2 : b = false := by simpa using hb
          subst hb2
          simp only [removeIfNot, Bool.false_eq_true, if_false]
          exact ih xs ys hx2 hy2

/-- C1: compaction performs a stable partition keyed on the per-path
intersection flag, applied in lockstep to the paths array and the
intersections array.  For any stencil of flags and any pair of equal-length
arrays: the surviving count equals the number of true flags (this count is
what num_paths is set to); the compaction of the two arrays is the
compaction of the zipped array under the same predicate, so that after
compaction position i of the surviving paths and position i of the surviving
intersections come from one common original position; and the surviving
zipped sequence is a sublist of the original zipped sequence, so every
false-flagged pair is removed and survivors keep their relative order. -/
theorem compaction_stable_partition
    (paths : List PathSegment) (isecs : List ShadeableIntersection)
    (flags : List Bool)
    (hp : paths.length = flags.length) (hi : isecs.length = flags.length) :
    (removeIfNot paths flags).length = flags.count true ∧
    (removeIfNot paths flags).zip (removeIfNot isecs flags) =
      removeIfNot (paths.zip isecs) flags ∧
    List.Sublist (removeIfNot (paths.zip isecs) flags) (paths.zip isecs) := by
  refine ⟨removeIfNot_length paths flags hp, removeIfNot_zip flags paths isecs hp hi, ?_⟩
  exact removeIfNot_sublist (paths.zip isecs) flags

/-- Witness for C1 at a concrete input: two paths and two intersection
records, the first flag false and the second true. -/
theorem compaction_stable_partition_witness :
    ([pathDefault, { pathDefault with pixelIndex := 1 }].length =
      [false, true].length ∧
     [isecDefault, { isecDefault with materialId := 3 }].length =
      [false, true].length) ∧
    ((removeIfNot [pathDefault, { pathDefault with pixelIndex := 1 }]
        [false, true]).length = [false, true].count true ∧
     (removeIfNot [pathDefault, { pathDefault with pixelIndex := 1 }]
        [false, true]).zip
        (removeIfNot [isecDefault, { isecDefault with materialId := 3 }]
          [false, true]) =
      removeIfNot ([pathDefault, { pathDefault with pixelIndex := 1 }].zip
        [isecDefault, { isecDefault with materialId := 3 }]) [false, true] ∧
     List.Sublist
       (removeIfNot ([pathDefault, { pathDefault with pixelIndex := 1 }].zip
         [isecDefault, { isecDefault with materialId := 3 }]) [false, true])
       ([pathDefault, { pathDefault with pixelIndex := 1 }].zip
         [isecDefault, { isecDefault with materialId := 3 }])) :=
  ⟨⟨by decide, by decide⟩,
   compaction_stable_partition
     [pathDefault, { pathDefault with pixelIndex := 1 }]
     [isecDefault, { isecDefault with materialId := 3 }]
     [false, true] (by decide) (by decide)⟩

theorem getD_default_irrel {α : Type} :
    ∀ (l : List α) (j : Nat), j < l.length → ∀ (d e : α), l.getD j d = l.getD j e := by
  intro l
  induction l with
  | nil => intro j hj; simp at hj
  | cons a l ih =>
    intro j hj d e
    cases j with
    | zero => rfl
    | succ j => exact ih j (by simpa using hj) d e

theorem getD_map_of_lt {α β : Type} (f : α → β) :
    ∀ (l : List α) (j : Nat), j < l.length → ∀ (d : β) (e : α),
      (l.map f).getD j d = f (l.getD j e) := by
  intro l
  induction l with
  | nil => intro j hj; simp at hj
  | cons a l ih =>
    intro j hj d e
    cases j with
    | zero => rfl
    | succ j => exact ih j (by simpa using hj) d e

theorem getD_mem_of_lt {α : Type} :
    ∀ (l : List α) (j : Nat), j < l.length → ∀ (d : α), l.getD j d ∈ l := by
  intro l
  induction l with
  | nil => intro j hj; simp at hj
  | cons a l ih =>
    intro j hj d
    cases j with
    | zero => exact List.mem_cons_self a l
    | succ j => exact List.mem_cons_of_mem a (ih j (by simpa using hj) d)

theorem selectHit_none :
    ∀ (l : List (ℚ × Vec3)) (i : Nat) (tmin : ℚ) (idx : Int) (nrm : Vec3),
      (∀ p ∈ l, ¬ (0 < p.1 ∧ p.1 < tmin)) →
      selectHit i tmin idx nrm l = (tmin, idx, nrm) := by
  intro l
  induction l with
  | nil => intro i tmin idx nrm _; rfl
  | cons hd rest ih =>
    intro i tmin idx nrm h
    obtain ⟨t, n⟩ := hd
    have hh : ¬ (0 < t ∧ t < tmin) := h (t, n) (List.mem_cons_self _ _)
    rw [selectHit, if_neg hh]
    exact ih (i + 1) tmin idx nrm (fun p hp => h p (List.mem_cons_of_mem _ hp))

theorem selectHit_some :
    ∀ (l : List (ℚ × Vec3)) (i : Nat) (tmin : ℚ) (idx : Int) (nrm : Vec3),
      (∃ p ∈ l, 0 < p.1 ∧ p.1 < tmin) →
      ∃ j, j < l.length ∧
        selectHit i tmin idx nrm l =
          ((l.getD j hitDefault).1, Int.ofNat (i + j), (l.getD j hitDefault).2) ∧
        0 < (l.getD j hitDefault).1 ∧ (l.getD j hitDefault).1 < tmin ∧
        (∀ k, k < l.length → 0 < (l.getD k hitDefault).1 →
          (l.getD j hitDefault).1 ≤ (l.getD k hitDefault).1) ∧
        (∀ k, k < j → 0 < (l.getD k hitDefault).1 →
          (l.getD j hitDefault).1 < (l.getD k hitDefault).1) := by
  intro l
  induction l with
  | nil => intro i tmin idx nrm h; simp at h
  | cons hd rest ih =>
    intro i tmin idx nrm h
    obtain ⟨t, n⟩ := hd
    by_cases hc : 0 < t ∧ t < tmin
    · rw [selectHit, if_pos hc]
      by_cases hr : ∃ p ∈ rest, 0 < p.1 ∧ p.1 < t
      · obtain ⟨j1, hj1, heq, hpos, hlt, hmin, hstrict⟩ :=
          ih (i + 1) t (Int.ofNat i) n hr
        refine ⟨j1 + 1, by simpa using Nat.succ_lt_succ hj1, ?_, ?_, ?_, ?_, ?_⟩
        · rw [heq]
          have harith : i + 1 + j1 = i + (j1 + 1) := by omega
          rw [List.getD_cons_succ, harith]
        · simpa [List.getD_cons_succ] using hpos
        · rw [List.getD_cons_succ]
          exact lt_trans hlt hc.2
        · intro k hk hkpos
          cases k with
          | zero =>
            rw [List.getD_cons_succ]
            exact le_of_lt hlt
          | succ k =>
            rw [List.getD_cons_succ, List.getD_cons_succ]
            rw [List.getD_cons_succ] at hkpos
            exact hmin k (by simpa using hk) hkpos
        · intro k hk hkpos
          cases k with
          | zero =>
            rw [List.getD_cons_succ]
            exact hlt
          | succ k =>
            rw [List.getD_cons_succ, List.getD_cons_succ]
            rw [List.getD_cons_succ] at hkpos
            exact hstrict k (by omega) hkpos
      · push_neg at hr
        have hnone : ∀ p ∈ rest, ¬ (0 < p.1 ∧ p.1 < t) := by
          intro p hp
          intro hcontra
          exact absurd hcontra.2 (not_lt.mpr (hr p hp hcontra.1))
        rw [selectHit_none rest (i + 1) t (Int.ofNat i) n hnone]
        refine ⟨0, by simp, ?_, by simpa using hc.1, by simpa using hc.2, ?_, ?_⟩
        · simp
        · intro k hk hkpos
          cases k with
          | zero => simp
          | succ k =>
            rw [List.getD_cons_succ] at hkpos
            rw [List.getD_cons_zero, List.getD_cons_succ]
            have hk2 : k < rest.length := by simpa using hk
            have := hr (rest.getD k hitDefault) (getD_mem_of_lt rest k hk2 hitDefault) hkpos
            exact this
        · intro k hk; simp at hk
    · rw [selectHit, if_neg hc]
      have hr : ∃ p ∈ rest, 0 < p.1 ∧ p.1 < tmin := by
        obtain ⟨p, hp, hppos⟩ := h
        rcases List.mem_cons.mp hp with hp0 | hp1
        · subst hp0; exact absurd hppos hc
        · exact ⟨p, hp1, hppos⟩
      obtain ⟨j1, hj1, heq, hpos, hlt, hmin, hstrict⟩ := ih (i + 1) tmin idx nrm hr
      refine ⟨j1 + 1, by simpa using Nat.succ_lt_succ hj1, ?_, ?_, ?_, ?_, ?_⟩
      · rw [heq]
        have harith : i + 1 + j1 = i + (j1 + 1) := by omega
        rw [List.getD_cons_succ, harith]
      · simpa [List.getD_cons_succ] using hpos
      · simpa [List.getD_cons_succ] using hlt
      · intro k hk hkpos
        cases k with
        | zero =>
          rw [List.getD_cons_zero] at hkpos
          rw [List.getD_cons_succ, List.getD_cons_zero]
          have htmin : tmin ≤ t := by
            by_contra hcon
            exact hc ⟨hkpos, not_le.mp hcon⟩
          exact le_of_lt (lt_of_lt_of_le hlt htmin)
        | succ k =>
          rw [List.getD_cons_succ, List.getD_cons_succ]
          rw [List.getD_cons_succ] at hkpos
          exact hmin k (by simpa using hk) hkpos
      · intro k hk hkpos
        cases k with
        | zero =>
          rw [List.getD_cons_zero] at hkpos
          rw [List.getD_cons_succ, List.getD_cons_zero]
          have htmin : tmin ≤ t := by
            by_contra hcon
            exact hc ⟨hkpos, not_le.mp hcon⟩
          exact lt_of_lt_of_le hlt htmin
        | succ k =>
          rw [List.getD_cons_succ, List.getD_cons_succ]
          rw [List.getD_cons_succ] at hkpos
          exact hstrict k (by omega) hkpos

/-- C4: the intersection stage tests the ray of a path against each
primitive in list order and keeps the minimum positive hit distance, ties
resolved in favor of the first primitive attaining the minimum; with no
positive hit the record gets the sentinel distance -1 and the flag false,
otherwise the flag is true and the record carries the distance, the surface
normal, and the material identifier of the chosen primitive.  Distances are
compared below the FLT_MAX start value of the running minimum. -/
theorem intersection_nearest_hit (geoms : List Geom)
    (ht : Geom → Ray → ℚ × Vec3) (r : Ray) :
    ((∀ p ∈ geoms.map (fun g => ht g r), ¬ (0 < p.1 ∧ p.1 < fltMax)) →
      computeIntersectionOne geoms ht r =
        ({ t := -1, surfaceNormal := Vec3.zero, materialId := 0 }, false)) ∧
    ((∃ p ∈ geoms.map (fun g => ht g r), 0 < p.1 ∧ p.1 < fltMax) →
      ∃ j, j < geoms.length ∧
        computeIntersectionOne geoms ht r =
          ({ t := (ht (geoms.getD j geomDefault) r).1,
             surfaceNormal := (ht (geoms.getD j geomDefault) r).2,
             materialId := (geoms.getD j geomDefault).materialid }, true) ∧
        0 < (ht (geoms.getD j geomDefault) r).1 ∧
        (∀ k, k < geoms.length → 0 < (ht (geoms.getD k geomDefault) r).1 →
          (ht (geoms.getD j geomDefault) r).1 ≤ (ht (geoms.getD k geomDefault) r).1) ∧
        (∀ k, k < j → 0 < (ht (geoms.getD k geomDefault) r).1 →
          (ht (geoms.getD j geomDefault) r).1 < (ht (geoms.getD k geomDefault) r).1)) := by
  constructor
  · intro h
    unfold computeIntersectionOne
    rw [selectHit_none (geoms.map (fun g => ht g r)) 0 fltMax (-1) Vec3.zero h]
    simp
  · intro h
    obtain ⟨j, hj, heq, hpos, _, hmin, hstrict⟩ :=
      selectHit_some (geoms.map (fun g => ht g r)) 0 fltMax (-1) Vec3.zero h
    have hjg : j < geoms.length := by simpa using hj
    have hgetj : (geoms.map (fun g => ht g r)).getD j hitDefault =
        ht (geoms.getD j geomDefault) r :=
      getD_map_of_lt (fun g => ht g r) geoms j hjg hitDefault geomDefault
    refine ⟨j, hjg, ?_, ?_, ?_, ?_⟩
    · unfold computeIntersectionOne
      rw [heq]
      have h0 : (0 : Int) ≤ Int.ofNat (0 + j) := Int.ofNat_nonneg _
      have hne : ¬ (Int.ofNat (0 + j) = -1) := by omega
      rw [if_neg hne]
      have htn : (Int.ofNat (0 + j)).toNat = j := by simp
      rw [htn, hgetj]
    · rw [← hgetj]; exact hpos
    · intro k hk hkpos
      have hgetk : (geoms.map (fun g => ht g r)).getD k hitDefault =
          ht (geoms.getD k geomDefault) r :=
        getD_map_of_lt (fun g => ht g r) geoms k hk hitDefault geomDefault
      rw [← hgetj, ← hgetk]
      refine hmin k (by simpa using hk) ?_
      rw [hgetk]; exact hkpos
    · intro k hk hkpos
      have hkg : k < geoms.length := lt_trans hk hjg
      have hgetk : (geoms.map (fun g => ht g r)).getD k hitDefault =
          ht (geoms.getD k geomDefault) r :=
        getD_map_of_lt (fun g => ht g r) geoms k hkg hitDefault geomDefault
      rw [← hgetj, ← hgetk]
      refine hstrict k hk ?_
      rw [hgetk]; exact hkpos

/-- Witness for C4 at a concrete input: three primitives with hit distances
7, 4 and 4; the nearest positive distance 4 is first attained by the middle
primitive, whose normal and material id 20 are recorded. -/
theorem intersection_nearest_hit_witness :
    (∃ p ∈ [⟨GeomType.CUBE, 10, Vec3.zero⟩, ⟨GeomType.SPHERE, 20, Vec3.zero⟩,
        (⟨GeomType.SPHERE, 30, Vec3.zero⟩ : Geom)].map
        (fun g => (if g.materialid = 10 then ((7 : ℚ), Vec3.one)
          else ((4 : ℚ), Vec3.zero)) ),
      0 < p.1 ∧ p.1 < fltMax) ∧
    (∃ j, j < ([⟨GeomType.CUBE, 10, Vec3.zero⟩, ⟨GeomType.SPHERE, 20, Vec3.zero⟩,
        (⟨GeomType.SPHERE, 30, Vec3.zero⟩ : Geom)] : List Geom).length ∧
      computeIntersectionOne
        [⟨GeomType.CUBE, 10, Vec3.zero⟩, ⟨GeomType.SPHERE, 20, Vec3.zero⟩, ⟨GeomType.SPHERE, 30, Vec3.zero⟩]
        (fun g _ => if g.materialid = 10 then ((7 : ℚ), Vec3.one)
          else ((4 : ℚ), Vec3.zero))
        ⟨Vec3.zero, Vec3.one⟩ =
        ({ t := ((fun g _ => if g.materialid = 10 then ((7 : ℚ), Vec3.one)
              else ((4 : ℚ), Vec3.zero)) ([⟨GeomType.CUBE, 10, Vec3.zero⟩,
              ⟨GeomType.SPHERE, 20, Vec3.zero⟩, (⟨GeomType.SPHERE, 30, Vec3.zero⟩ : Geom)].getD j
              geomDefault) (⟨Vec3.zero, Vec3.one⟩ : Ray)).1,
           surfaceNormal := ((fun g _ => if g.materialid = 10
              then ((7 : ℚ), Vec3.one) else ((4 : ℚ), Vec3.zero))
              ([⟨GeomType.CUBE, 10, Vec3.zero⟩, ⟨GeomType.SPHERE, 20, Vec3.zero⟩,
              (⟨GeomType.SPHERE, 30, Vec3.zero⟩ : Geom)].getD j geomDefault)
              (⟨Vec3.zero, Vec3.one⟩ : Ray)).2,
           materialId := ([⟨GeomType.CUBE, 10, Vec3.zero⟩, ⟨GeomType.SPHERE, 20, Vec3.zero⟩,
              (⟨GeomType.SPHERE, 30, Vec3.zero⟩ : Geom)].getD j
              geomDefault).materialid }, true) ∧
      0 < ((fun g _ => if g.materialid = 10 then ((7 : ℚ), Vec3.one)
          else ((4 : ℚ), Vec3.zero)) ([⟨GeomType.CUBE, 10, Vec3.zero⟩,
          ⟨GeomType.SPHERE, 20, Vec3.zero⟩, (⟨GeomType.SPHERE, 30, Vec3.zero⟩ : Geom)].getD j
          geomDefault) (⟨Vec3.zero, Vec3.one⟩ : Ray)).1 ∧
      (∀ k, k < ([⟨GeomType.CUBE, 10, Vec3.zero⟩, ⟨GeomType.SPHERE, 20, Vec3.zero⟩,
          (⟨GeomType.SPHERE, 30, Vec3.zero⟩ : Geom)] : List Geom).length →
        0 < ((fun g _ => if g.materialid = 10 then ((7 : ℚ), Vec3.one)
            else ((4 : ℚ), Vec3.zero)) ([⟨GeomType.CUBE, 10, Vec3.zero⟩,
            ⟨GeomType.SPHERE, 20, Vec3.zero⟩, (⟨GeomType.SPHERE, 30, Vec3.zero⟩ : Geom)].getD k
            geomDefault) (⟨Vec3.zero, Vec3.one⟩ : Ray)).1 →
        ((fun g _ => if g.materialid = 10 then ((7 : ℚ), Vec3.one)
            else ((4 : ℚ), Vec3.zero)) ([⟨GeomType.CUBE, 10, Vec3.zero⟩,
            ⟨GeomType.SPHERE, 20, Vec3.zero⟩, (⟨GeomType.SPHERE, 30, Vec3.zero⟩ : Geom)].getD j
            geomDefault) (⟨Vec3.zero, Vec3.one⟩ : Ray)).1 ≤
          ((fun g _ => if g.materialid = 10 then ((7 : ℚ), Vec3.one)
            else ((4 : ℚ), Vec3.zero)) ([⟨GeomType.CUBE, 10, Vec3.zero⟩,
            ⟨GeomType.SPHERE, 20, Vec3.zero⟩, (⟨GeomType.SPHERE, 30, Vec3.zero⟩ : Geom)].getD k
            geomDefault) (⟨Vec3.zero, Vec3.one⟩ : Ray)).1) ∧
      (∀ k, k < j →
        0 < ((fun g _ => if g.materialid = 10 then ((7 : ℚ), Vec3.one)
            else ((4 : ℚ), Vec3.zero)) ([⟨GeomType.CUBE, 10, Vec3.zero⟩,
            ⟨GeomType.SPHERE, 20, Vec3.zero⟩, (⟨GeomType.SPHERE, 30, Vec3.zero⟩ : Geom)].getD k
            geomDefault) (⟨Vec3.zero, Vec3.one⟩ : Ray)).1 →
        ((fun g _ => if g.materialid = 10 then ((7 : ℚ), Vec3.one)
            else ((4 : ℚ), Vec3.zero)) ([⟨GeomType.CUBE, 10, Vec3.zero⟩,
            ⟨GeomType.SPHERE, 20, Vec3.zero⟩, (⟨GeomType.SPHERE, 30, Vec3.zero⟩ : Geom)].getD j
            geomDefault) (⟨Vec3.zero, Vec3.one⟩ : Ray)).1 <
          ((fun g _ => if g.materialid = 10 then ((7 : ℚ), Vec3.one)
            else ((4 : ℚ), Vec3.zero)) ([⟨GeomType.CUBE, 10, Vec3.zero⟩,
            ⟨GeomType.SPHERE, 20, Vec3.zero⟩, (⟨GeomType.SPHERE, 30, Vec3.zero⟩ : Geom)].getD k
            geomDefault) (⟨Vec3.zero, Vec3.one⟩ : Ray)).1)) :=
  ⟨by decide,
   (intersection_nearest_hit
     [⟨GeomType.CUBE, 10, Vec3.zero⟩, ⟨GeomType.SPHERE, 20, Vec3.zero⟩, ⟨GeomType.SPHERE, 30, Vec3.zero⟩]
     (fun g _ => if g.materialid = 10 then ((7 : ℚ), Vec3.one)
       else ((4 : ℚ), Vec3.zero))
     ⟨Vec3.zero, Vec3.one⟩).2 (by decide)⟩

/-- C5: the shading stage multiplies the throughput of a path with positive
bounce budget that hit an emissive material by (material color times
emittance) and zeroes its bounce budget; a path whose bounce budget is
already zero is returned entirely unchanged. -/
theorem shading_emissive_and_skip (sc : ScatterFn) (materials : List Material)
    (iter idx : Nat) (isec : ShadeableIntersection) (p : PathSegment) :
    (0 < p.remainingBounces →
      0 < (materials.getD isec.materialId materialDefault).emittance →
      shadeOne sc materials iter idx isec p =
        { p with
            color := p.color.mul
              ((materials.getD isec.materialId materialDefault).color.smul
                (materials.getD isec.materialId materialDefault).emittance),
            remainingBounces := 0 }) ∧
    (p.remainingBounces = 0 → shadeOne sc materials iter idx isec p = p) := by
  constructor
  · intro h1 h2
    have hne : ¬ p.remainingBounces = 0 := by omega
    simp only [shadeOne]
    rw [if_neg hne, if_pos h2]
  · intro h0
    simp only [shadeOne]
    rw [if_pos h0]

/-- Witness for C5 at a concrete input: a path with bounce budget 3 hitting
an emissive material of emittance 5, and a path with bounce budget 0. -/
theorem shading_emissive_and_skip_witness :
    ((0 : Int) <
        ({ pathDefault with remainingBounces := 3 } : PathSegment).remainingBounces ∧
      0 < (([⟨Vec3.one, 5, false, false, 1, ⟨false, 1, 1, 1⟩, 0⟩] :
          List Material).getD isecDefault.materialId materialDefault).emittance ∧
      shadeOne (fun _ _ _ _ _ _ _ _ q => q)
          [⟨Vec3.one, 5, false, false, 1, ⟨false, 1, 1, 1⟩, 0⟩] 0 0 isecDefault
          { pathDefault with remainingBounces := 3 } =
        { ({ pathDefault with remainingBounces := 3 } : PathSegment) with
            color := ({ pathDefault with remainingBounces := 3 } :
                PathSegment).color.mul
              ((([⟨Vec3.one, 5, false, false, 1, ⟨false, 1, 1, 1⟩, 0⟩] :
                  List Material).getD isecDefault.materialId
                  materialDefault).color.smul
                (([⟨Vec3.one, 5, false, false, 1, ⟨false, 1, 1, 1⟩, 0⟩] :
                  List Material).getD isecDefault.materialId
                  materialDefault).emittance),
            remainingBounces := 0 }) ∧
    shadeOne (fun _ _ _ _ _ _ _ _ q => q)
        [⟨Vec3.one, 5, false, false, 1, ⟨false, 1, 1, 1⟩, 0⟩] 0 0 isecDefault
        pathDefault = pathDefault :=
  ⟨⟨by decide, by decide,
    (shading_emissive_and_skip (fun _ _ _ _ _ _ _ _ q => q)
      [⟨Vec3.one, 5, false, false, 1, ⟨false, 1, 1, 1⟩, 0⟩] 0 0 isecDefault
      { pathDefault with remainingBounces := 3 }).1 (by decide) (by decide)⟩,
   (shading_emissive_and_skip (fun _ _ _ _ _ _ _ _ q => q)
      [⟨Vec3.one, 5, false, false, 1, ⟨false, 1, 1, 1⟩, 0⟩] 0 0 isecDefault
      pathDefault).2 rfl⟩

theorem chset_zero_get (q : ℚ) :
    ∀ i j, i < 3 → j < 3 → j ≠ i → (Vec3.chset Vec3.zero i q).get j = 0 := by
  intro i j hi hj hne
  interval_cases i <;> interval_cases j <;>
    simp_all [Vec3.chset, Vec3.get, Vec3.zero]

/-- C6 counterexample: for a dispersive material of base color (1,1,1), the
average of the effective colors of three consecutive iterations is not the
base color (the per-channel factor is 1.4, so the average is 7/15 of the
base color, not the base color). -/
theorem dispersion_average_counterexample :
    Vec3.smul (1 / 3)
        (((effectiveIorColor
            ⟨Vec3.one, 0, false, true, 1, ⟨true, 3 / 2, 8 / 5, 17 / 10⟩, 0⟩
            0).2.add
          (effectiveIorColor
            ⟨Vec3.one, 0, false, true, 1, ⟨true, 3 / 2, 8 / 5, 17 / 10⟩, 0⟩
            1).2).add
          (effectiveIorColor
            ⟨Vec3.one, 0, false, true, 1, ⟨true, 3 / 2, 8 / 5, 17 / 10⟩, 0⟩
            2).2) ≠
      (⟨Vec3.one, 0, false, true, 1, ⟨true, 3 / 2, 8 / 5, 17 / 10⟩, 0⟩ :
        Material).color := by
  norm_num [effectiveIorColor, dispersionColor, Vec3.chset, Vec3.get,
    Vec3.add, Vec3.smul, Vec3.zero, Vec3.one, Vec3.mk.injEq]

/-- C6 amended: for a dispersive material, shading uses the index of
refraction of channel (iter mod 3), the effective color vanishes outside
channel (iter mod 3), and the average of the effective colors over any
three consecutive iterations equals 7/15 of the base color (the code scales
the selected channel by 1.4, not by 3, so the three-iteration average is
(1.4/3) of the base color rather than the base color). -/
theorem dispersion_channel_selection (m : Material) (n : Nat)
    (h : m.dispersion.hasDispersion = true) :
    (∀ k, (effectiveIorColor m k).1 = m.dispersion.iorAt (k % 3)) ∧
    (∀ k c, c < 3 → c ≠ k % 3 → ((effectiveIorColor m k).2).get c = 0) ∧
    Vec3.smul (1 / 3)
        ((((effectiveIorColor m n).2).add
          ((effectiveIorColor m (n + 1)).2)).add
          ((effectiveIorColor m (n + 2)).2)) =
      Vec3.smul (7 / 15) m.color := by
  refine ⟨?_, ?_, ?_⟩
  · intro k
    simp only [effectiveIorColor]
    rw [if_pos h]
  · intro k c hc hne
    simp only [effectiveIorColor]
    rw [if_pos h]
    exact chset_zero_get _ (k % 3) c (Nat.mod_lt _ (by omega)) hc hne
  · have h3 : n % 3 = 0 ∨ n % 3 = 1 ∨ n % 3 = 2 := by omega
    rcases h3 with h0 | h1 | h2
    · have e2 : (n + 1) % 3 = 1 := by omega
      have e3 : (n + 2) % 3 = 2 := by omega
      simp only [effectiveIorColor, dispersionColor, h, if_true, h0, e2, e3]
      simp only [Vec3.chset, Vec3.get, Vec3.zero, Vec3.add, Vec3.smul,
        Vec3.mk.injEq]
      exact ⟨by ring, by ring, by ring⟩
    · have e2 : (n + 1) % 3 = 2 := by omega
      have e3 : (n + 2) % 3 = 0 := by omega
      simp only [effectiveIorColor, dispersionColor, h, if_true, h1, e2, e3]
      simp only [Vec3.chset, Vec3.get, Vec3.zero, Vec3.add, Vec3.smul,
        Vec3.mk.injEq]
      exact ⟨by ring, by ring, by ring⟩
    · have e2 : (n + 1) % 3 = 0 := by omega
      have e3 : (n + 2) % 3 = 1 := by omega
      simp only [effectiveIorColor, dispersionColor, h, if_true, h2, e2, e3]
      simp only [Vec3.chset, Vec3.get, Vec3.zero, Vec3.add, Vec3.smul,
        Vec3.mk.injEq]
      exact ⟨by ring, by ring, by ring⟩

/-- Witness for the amended C6 theorem at a concrete dispersive material
and the iteration triple 0, 1, 2. -/
theorem dispersion_channel_selection_witness :
    ((⟨Vec3.one, 0, false, true, 1, ⟨true, 3 / 2, 8 / 5, 17 / 10⟩, 0⟩ :
        Material).dispersion.hasDispersion = true) ∧
    ((∀ k, (effectiveIorColor
        ⟨Vec3.one, 0, false, true, 1, ⟨true, 3 / 2, 8 / 5, 17 / 10⟩, 0⟩
        k).1 =
        (⟨Vec3.one, 0, false, true, 1, ⟨true, 3 / 2, 8 / 5, 17 / 10⟩, 0⟩ :
          Material).dispersion.iorAt (k % 3)) ∧
     (∀ k c, c < 3 → c ≠ k % 3 →
        ((effectiveIorColor
          ⟨Vec3.one, 0, false, true, 1, ⟨true, 3 / 2, 8 / 5, 17 / 10⟩, 0⟩
          k).2).get c = 0) ∧
     Vec3.smul (1 / 3)
        ((((effectiveIorColor
            ⟨Vec3.one, 0, false, true, 1, ⟨true, 3 / 2, 8 / 5, 17 / 10⟩, 0⟩
            0).2).add
          ((effectiveIorColor
            ⟨Vec3.one, 0, false, true, 1, ⟨true, 3 / 2, 8 / 5, 17 / 10⟩, 0⟩
            (0 + 1)).2)).add
          ((effectiveIorColor
            ⟨Vec3.one, 0, false, true, 1, ⟨true, 3 / 2, 8 / 5, 17 / 10⟩, 0⟩
            (0 + 2)).2)) =
      Vec3.smul (7 / 15)
        (⟨Vec3.one, 0, false, true, 1, ⟨true, 3 / 2, 8 / 5, 17 / 10⟩, 0⟩ :
          Material).color) :=
  ⟨by decide,
   dispersion_channel_selection
     ⟨Vec3.one, 0, false, true, 1, ⟨true, 3 / 2, 8 / 5, 17 / 10⟩, 0⟩ 0 rfl⟩

/-- C7 counterexample: the random stream used for the scattering decision of
the path at compacted index 3 in iteration 7 is identical at loop depth 1
and at loop depth 2, because shadeFakeMaterial passes the literal 0 as the
depth argument of makeSeededRandomEngine; the claim that two different depth
levels of the same iteration draw from two different streams is false. -/
theorem scattering_seed_depth_counterexample :
    shadeRngSeed 7 3 1 = shadeRngSeed 7 3 2 := rfl

/-- C7 amended: the scattering stream is deterministically derived from the
iteration index and the position of the path in the compacted array, with
the depth input of the seed hash fixed at the literal 0; hence the stream is
invariant in the loop depth, and the same path at two different depth levels
of one iteration draws from the same stream. -/
theorem scattering_seed_depth_invariant (iter idx d1 d2 : Nat) :
    shadeRngSeed iter idx d1 = shadeRngSeed iter idx d2 ∧
    shadeRngSeed iter idx d1 = makeSeededRandomEngineSeed iter idx 0 :=
  ⟨rfl, rfl⟩

theorem foldedUpdate_zero (upd : Geom → ℚ → Geom) (iter : Nat) (e : ℚ) :
    ∀ (gs : List Geom) (i : Nat), foldedUpdate upd iter e 0 i gs = gs := by
  intro gs
  induction gs with
  | nil => intro i; rfl
  | cons g gs ih =>
    intro i
    simp only [foldedUpdate, Function.iterate_zero_apply, ih (i + 1)]

theorem foldedUpdate_step (upd : Geom → ℚ → Geom) (iter : Nat) (e : ℚ)
    (n : Nat) :
    ∀ (gs : List Geom) (i : Nat),
      foldedUpdate upd iter e n i (updateGeomsFrom upd iter e i gs) =
        foldedUpdate upd iter e (n + 1) i gs := by
  intro gs
  induction gs with
  | nil => intro i; rfl
  | cons g gs ih =>
    intro i
    simp only [updateGeomsFrom, foldedUpdate, ih (i + 1)]
    rw [Function.iterate_succ_apply]

/-- C10: within one render iteration every pass of the depth loop computes
the identical time offset dT for a given primitive: the launch of
updateGeoms at any two loop depths is the same function of the geometry
list (the seed depends only on the iteration index and the primitive
index), and running n depth passes equals, per primitive, the n-fold
application of the update rule with the one fixed dT of that primitive,
rather than a fresh offset per depth. -/
theorem geometry_update_same_dT_per_pass (upd : Geom → ℚ → Geom)
    (iter : Nat) (e : ℚ) (d1 d2 n : Nat) (gs : List Geom) :
    updateGeomsPass upd iter d1 e gs = updateGeomsPass upd iter d2 e gs ∧
    runGeomPasses upd iter e n gs = foldedUpdate upd iter e n 0 gs := by
  refine ⟨rfl, ?_⟩
  induction n generalizing gs with
  | zero => exact (foldedUpdate_zero upd iter e gs 0).symm
  | succ n ih =>
    calc runGeomPasses upd iter e (n + 1) gs
        = runGeomPasses upd iter e n (updateGeomsFrom upd iter e 0 gs) := rfl
      _ = foldedUpdate upd iter e n 0 (updateGeomsFrom upd iter e 0 gs) :=
          ih (updateGeomsFrom upd iter e 0 gs)
      _ = foldedUpdate upd iter e (n + 1) 0 gs :=
          foldedUpdate_step upd iter e n gs 0

theorem runLoop_count {S : Type} (td : Nat) (body : Nat → S → S) :
    ∀ (fuel d : Nat) (s : S) (n : Nat), d < td → d + fuel = td →
      (runLoop td (countingBody body) fuel d (s, n)).2 = n + fuel := by
  intro fuel
  induction fuel with
  | zero => intro d s n hd he; omega
  | succ fuel ih =>
    intro d s n hd he
    simp only [runLoop, countingBody]
    by_cases hc : d + 1 = td
    · rw [if_pos hc]
      have : fuel = 0 := by omega
      subst this
      rfl
    · rw [if_neg hc]
      have h1 : d + 1 < td := by omega
      have h2 : (d + 1) + fuel = td := by omega
      rw [ih (d + 1) (body d s) (n + 1) h1 h2]
      omega

/-- C2 counterexample: a two-pixel scene with an empty geometry list and
trace depth 3.  After the first depth pass every path has been compacted
away (the active count is 0 and 1 is less than the trace depth 3), yet the
loop still executes all 3 depth passes: the exit test of the loop consults
only depth == traceDepth, so the claim that the loop exits as soon as no
active paths remain is false. -/
theorem depth_loop_no_early_exit_counterexample :
    (pipelinePass (fun _ _ => ((-1 : ℚ), Vec3.zero))
        (fun _ _ _ _ _ _ _ _ q => q) (fun g _ => g) [] 0 1 0
        ⟨[], [pathDefault, { pathDefault with pixelIndex := 1 }],
          [isecDefault, isecDefault]⟩).paths.length = 0 ∧
    (1 : Nat) < 3 ∧
    passesRun 3
        (pipelinePass (fun _ _ => ((-1 : ℚ), Vec3.zero))
          (fun _ _ _ _ _ _ _ _ q => q) (fun g _ => g) [] 0 1)
        ⟨[], [pathDefault, { pathDefault with pixelIndex := 1 }],
          [isecDefault, isecDefault]⟩ = 3 := by
  refine ⟨by decide, by decide, by decide⟩

/-- C2 amended: for every positive trace depth, every loop body and every
starting state, the depth loop executes exactly traceDepth passes: it
terminates exactly when the configured maximum bounce count is reached, and
the active path count becoming zero does not end the loop early (the
remaining passes still run, on an empty active set). -/
theorem depth_loop_exit (S : Type) (body : Nat → S → S) (s : S) (td : Nat)
    (h : 1 ≤ td) : passesRun td body s = td := by
  unfold passesRun
  rw [runLoop_count td body td 0 s 0 (by omega) (by omega)]
  omega

/-- Witness for the amended C2 theorem: with trace depth 2 the loop runs
exactly 2 passes. -/
theorem depth_loop_exit_witness :
    1 ≤ 2 ∧ passesRun 2 (fun _ (n : Nat) => n + 1) 0 = 2 :=
  ⟨by decide, depth_loop_exit Nat (fun _ n => n + 1) 0 2 (by decide)⟩

theorem shadeAll_length (sc : ScatterFn) (materials : List Material)
    (iter : Nat) :
    ∀ (ps : List PathSegment) (is : List ShadeableIntersection) (i : Nat),
      (shadeAll sc materials iter i is ps).length = ps.length := by
  intro ps
  induction ps with
  | nil => intro is i; cases is <;> rfl
  | cons p ps ih =>
    intro is i
    cases is with
    | nil => rfl
    | cons isec is => simp only [shadeAll, List.length_cons, ih is (i + 1)]

theorem removeIfNot_length_le {α : Type} (xs : List α) (bs : List Bool) :
    (removeIfNot xs bs).length ≤ xs.length :=
  (removeIfNot_sublist xs bs).length_le

theorem pipelinePass_length_le (ht : Geom → Ray → ℚ × Vec3) (sc : ScatterFn)
    (upd : Geom → ℚ → Geom) (materials : List Material) (exposure : ℚ)
    (iter depth : Nat) (st : PTState) :
    (pipelinePass ht sc upd materials exposure iter depth st).paths.length ≤
      st.paths.length := by
  simp only [pipelinePass]
  rw [shadeAll_length]
  exact removeIfNot_length_le st.paths _

/-- C3 counterexample: a one-pixel scene with one primitive carrying an
emissive material.  After the first depth pass the path has hit the light:
its bounce budget is 0, yet it is still in the active set (the active count
is 1, and the next pass keeps it active as well, since compaction keys only
on the intersection flag).  The claim that every path in the active set at
depth d has a positive remaining bounce budget is false. -/
theorem active_budget_counterexample :
    ((pipelinePass (fun _ _ => ((5 : ℚ), Vec3.zero))
        (fun _ _ _ _ _ _ _ _ q => q) (fun g _ => g)
        [⟨Vec3.one, 5, false, false, 1, ⟨false, 1, 1, 1⟩, 0⟩] 0 1 0
        ⟨[⟨GeomType.SPHERE, 0, Vec3.zero⟩], [{ pathDefault with remainingBounces := 3 }],
          [isecDefault]⟩).paths.length = 1) ∧
    (((pipelinePass (fun _ _ => ((5 : ℚ), Vec3.zero))
        (fun _ _ _ _ _ _ _ _ q => q) (fun g _ => g)
        [⟨Vec3.one, 5, false, false, 1, ⟨false, 1, 1, 1⟩, 0⟩] 0 1 0
        ⟨[⟨GeomType.SPHERE, 0, Vec3.zero⟩], [{ pathDefault with remainingBounces := 3 }],
          [isecDefault]⟩).paths.getD 0 pathDefault).remainingBounces = 0) ∧
    ((pipelinePass (fun _ _ => ((5 : ℚ), Vec3.zero))
        (fun _ _ _ _ _ _ _ _ q => q) (fun g _ => g)
        [⟨Vec3.one, 5, false, false, 1, ⟨false, 1, 1, 1⟩, 0⟩] 0 1 1
        (pipelinePass (fun _ _ => ((5 : ℚ), Vec3.zero))
          (fun _ _ _ _ _ _ _ _ q => q) (fun g _ => g)
          [⟨Vec3.one, 5, false, false, 1, ⟨false, 1, 1, 1⟩, 0⟩] 0 1 0
          ⟨[⟨GeomType.SPHERE, 0, Vec3.zero⟩],
            [{ pathDefault with remainingBounces := 3 }],
            [isecDefault]⟩)).paths.length = 1) := by
  refine ⟨by decide, by decide, by decide⟩

/-- C3 amended: for every configuration of the pipeline, the active path
count after a depth pass is at most the active path count before it, and
along the whole depth loop the active count never exceeds the starting
count (the pixel count, since ray generation creates one path per pixel).
Active paths need not have a positive remaining bounce budget: paths
terminated at a light stay in the active set while they keep intersecting
geometry. -/
theorem active_count_monotone (ht : Geom → Ray → ℚ × Vec3) (sc : ScatterFn)
    (upd : Geom → ℚ → Geom) (materials : List Material) (exposure : ℚ)
    (iter : Nat) :
    (∀ depth st,
      (pipelinePass ht sc upd materials exposure iter depth st).paths.length ≤
        st.paths.length) ∧
    (∀ td fuel d st,
      ((runLoop td (pipelinePass ht sc upd materials exposure iter) fuel d
          st).paths.length ≤ st.paths.length)) := by
  constructor
  · intro depth st
    exact pipelinePass_length_le ht sc upd materials exposure iter depth st
  · intro td fuel
    induction fuel with
    | zero => intro d st; exact le_refl _
    | succ fuel ih =>
      intro d st
      simp only [runLoop]
      by_cases hc : d + 1 = td
      · rw [if_pos hc]
        exact pipelinePass_length_le ht sc upd materials exposure iter d st
      · rw [if_neg hc]
        exact le_trans
          (ih (d + 1) (pipelinePass ht sc upd materials exposure iter d st))
          (pipelinePass_length_le ht sc upd materials exposure iter d st)

theorem updateGeomsFrom_static (upd : Geom → ℚ → Geom)
    (h : ∀ g t, upd g t = g) (iter : Nat) (e : ℚ) :
    ∀ (gs : List Geom) (i : Nat), updateGeomsFrom upd iter e i gs = gs := by
  intro gs
  induction gs with
  | nil => intro i; rfl
  | cons g gs ih =>
    intro i
    simp only [updateGeomsFrom, h g _, ih (i + 1)]

theorem runLoop_geoms_static (ht : Geom → Ray → ℚ × Vec3) (sc : ScatterFn)
    (upd : Geom → ℚ → Geom) (h : ∀ g t, upd g t = g)
    (materials : List Material) (e : ℚ) (iter td : Nat) :
    ∀ (fuel d : Nat) (st : PTState),
      (runLoop td (pipelinePass ht sc upd materials e iter) fuel d st).geoms =
        st.geoms := by
  have hbody : ∀ d st,
      (pipelinePass ht sc upd materials e iter d st).geoms = st.geoms := by
    intro d st
    simp only [pipelinePass, updateGeomsPass]
    exact updateGeomsFrom_static upd h iter e st.geoms 0
  intro fuel
  induction fuel with
  | zero => intro d st; rfl
  | succ fuel ih =>
    intro d st
    simp only [runLoop]
    by_cases hc : d + 1 = td
    · rw [if_pos hc]
      exact hbody d st
    · rw [if_neg hc]
      rw [ih (d + 1) (pipelinePass ht sc upd materials e iter d st)]
      exact hbody d st

theorem renderIter_fst_static (P : SessionParams)
    (h : ∀ g t, P.upd g t = g) (iter : Nat) (g : List Geom)
    (img : List Vec3) : (renderIter P iter g img).1 = g := by
  simp only [renderIter]
  exact runLoop_geoms_static P.ht P.sc P.upd h P.materials P.exposure iter
    P.traceDepth P.traceDepth 0 _

theorem renderSession_resume_static (P : SessionParams)
    (h : ∀ g t, P.upd g t = g) (g0 : List Geom) :
    ∀ (N start M : Nat) (img : List Vec3),
      renderSession P (start + N) M
          (g0, (renderSession P start N (g0, img)).2) =
        renderSession P start (N + M) (g0, img) := by
  intro N
  induction N with
  | zero =>
    intro start M img
    rw [Nat.add_zero, Nat.zero_add]
    rfl
  | succ N ih =>
    intro start M img
    have hit : renderIter P start g0 img =
        (g0, (renderIter P start g0 img).2) := by
      calc renderIter P start g0 img
          = ((renderIter P start g0 img).1,
              (renderIter P start g0 img).2) := rfl
        _ = (g0, (renderIter P start g0 img).2) := by
              rw [renderIter_fst_static P h start g0 img]
    have e1 : renderSession P start (N + 1) (g0, img) =
        renderSession P (start + 1) N
          (g0, (renderIter P start g0 img).2) := by
      calc renderSession P start (N + 1) (g0, img)
          = renderSession P (start + 1) N (renderIter P start g0 img) := rfl
        _ = renderSession P (start + 1) N
              (g0, (renderIter P start g0 img).2) := by rw [hit]
    have e2 : renderSession P start (N + 1 + M) (g0, img) =
        renderSession P (start + 1) (N + M)
          (g0, (renderIter P start g0 img).2) := by
      have harith : N + 1 + M = (N + M) + 1 := by omega
      rw [harith]
      calc renderSession P start (N + M + 1) (g0, img)
          = renderSession P (start + 1) (N + M)
              (renderIter P start g0 img) := rfl
        _ = renderSession P (start + 1) (N + M)
              (g0, (renderIter P start g0 img).2) := by rw [hit]
    rw [e1, e2]
    have harith2 : start + (N + 1) = (start + 1) + N := by omega
    rw [harith2]
    exact ih (start + 1) M ((renderIter P start g0 img).2)

/-- C8 counterexample: in the drifting one-primitive scene, save the
un-normalized buffer after N = 1 iteration and resume for M = 1 further
iteration with identical per-iteration seeding; pathtraceResume reloads the
pristine host geometry together with the saved buffer, while the continuous
2-iteration session carries forward the device geometry that updateGeoms
mutated in place during iteration 1.  The resumed run therefore hits the
light again in iteration 2 and accumulates (2,2,2), while the continuous
run misses in iteration 2 and keeps (1,1,1): the roundtrip as claimed is
false. -/
theorem accumulation_resume_counterexample :
    (renderSession driftParams (1 + 1) 1
        (driftGeoms, pathtraceResumeImage
          (renderSession driftParams 1 1
            (driftGeoms, pathtraceInitImage driftParams.pixelcount)).2)).2 ≠
      (renderSession driftParams 1 (1 + 1)
        (driftGeoms, pathtraceInitImage driftParams.pixelcount)).2 := by
  have h2 : renderIter driftParams 1 driftGeoms [Vec3.zero] =
      ([⟨GeomType.SPHERE, 0, ⟨1, 0, 0⟩⟩], [(⟨1, 1, 1⟩ : Vec3)]) := by
    norm_num [renderIter, runLoop, pipelinePass, initPaths, updateGeomsPass,
      updateGeomsFrom, computeIntersectionOne, selectHit, removeIfNot,
      shadeAll, shadeOne, finalGather, driftParams, driftGeoms, fltMax,
      isecDefault, Vec3.add, Vec3.mul, Vec3.smul, Vec3.zero, Vec3.one,
      List.range_succ, Vec3.mk.injEq, Prod.mk.injEq]
  have h3 : renderIter driftParams 2 driftGeoms [(⟨1, 1, 1⟩ : Vec3)] =
      ([⟨GeomType.SPHERE, 0, ⟨1, 0, 0⟩⟩], [(⟨2, 2, 2⟩ : Vec3)]) := by
    norm_num [renderIter, runLoop, pipelinePass, initPaths, updateGeomsPass,
      updateGeomsFrom, computeIntersectionOne, selectHit, removeIfNot,
      shadeAll, shadeOne, finalGather, driftParams, driftGeoms, fltMax,
      isecDefault, Vec3.add, Vec3.mul, Vec3.smul, Vec3.zero, Vec3.one,
      List.range_succ, Vec3.mk.injEq, Prod.mk.injEq]
  have h4 : renderIter driftParams 2
      [(⟨GeomType.SPHERE, 0, ⟨1, 0, 0⟩⟩ : Geom)] [(⟨1, 1, 1⟩ : Vec3)] =
      ([⟨GeomType.SPHERE, 0, ⟨2, 0, 0⟩⟩], [(⟨1, 1, 1⟩ : Vec3)]) := by
    norm_num [renderIter, runLoop, pipelinePass, initPaths, updateGeomsPass,
      updateGeomsFrom, computeIntersectionOne, selectHit, removeIfNot,
      shadeAll, shadeOne, finalGather, driftParams, fltMax,
      isecDefault, Vec3.add, Vec3.mul, Vec3.smul, Vec3.zero, Vec3.one,
      List.range_succ, Vec3.mk.injEq, Prod.mk.injEq]
  have hl : (renderSession driftParams (1 + 1) 1
      (driftGeoms, pathtraceResumeImage
        (renderSession driftParams 1 1
          (driftGeoms, pathtraceInitImage driftParams.pixelcount)).2)).2 =
      [(⟨2, 2, 2⟩ : Vec3)] := by
    calc (renderSession driftParams (1 + 1) 1
        (driftGeoms, pathtraceResumeImage
          (renderSession driftParams 1 1
            (driftGeoms, pathtraceInitImage driftParams.pixelcount)).2)).2
        = (renderSession driftParams (1 + 1) 1
            (driftGeoms, pathtraceResumeImage
              (renderIter driftParams 1 driftGeoms [Vec3.zero]).2)).2 := rfl
      _ = (renderSession driftParams (1 + 1) 1
            (driftGeoms, pathtraceResumeImage
              (([⟨GeomType.SPHERE, 0, ⟨1, 0, 0⟩⟩],
                [(⟨1, 1, 1⟩ : Vec3)]) :
                List Geom × List Vec3).2)).2 := by rw [h2]
      _ = (renderIter driftParams 2 driftGeoms [(⟨1, 1, 1⟩ : Vec3)]).2 := rfl
      _ = ((([⟨GeomType.SPHERE, 0, ⟨1, 0, 0⟩⟩], [(⟨2, 2, 2⟩ : Vec3)]) :
            List Geom × List Vec3)).2 := by rw [h3]
      _ = [(⟨2, 2, 2⟩ : Vec3)] := rfl
  have hr : (renderSession driftParams 1 (1 + 1)
      (driftGeoms, pathtraceInitImage driftParams.pixelcount)).2 =
      [(⟨1, 1, 1⟩ : Vec3)] := by
    calc (renderSession driftParams 1 (1 + 1)
        (driftGeoms, pathtraceInitImage driftParams.pixelcount)).2
        = (renderSession driftParams 2 1
            (renderIter driftParams 1 driftGeoms [Vec3.zero])).2 := rfl
      _ = (renderSession driftParams 2 1
            (([⟨GeomType.SPHERE, 0, ⟨1, 0, 0⟩⟩], [(⟨1, 1, 1⟩ : Vec3)]) :
              List Geom × List Vec3)).2 := by rw [h2]
      _ = (renderIter driftParams 2 [(⟨GeomType.SPHERE, 0, ⟨1, 0, 0⟩⟩ : Geom)]
            [(⟨1, 1, 1⟩ : Vec3)]).2 := rfl
      _ = ((([⟨GeomType.SPHERE, 0, ⟨2, 0, 0⟩⟩], [(⟨1, 1, 1⟩ : Vec3)]) :
            List Geom × List Vec3)).2 := by rw [h4]
      _ = [(⟨1, 1, 1⟩ : Vec3)] := rfl
  rw [hl, hr]
  decide

/-- C8 amended: the accumulation buffer is only ever added to by
finalGather and never reset, and for a session whose geometry update rule
leaves every primitive unchanged (a static scene), resuming from the
un-normalized buffer saved after N iterations and running M further
iterations with identical per-iteration seeding yields the same session
state, and the same averaged image over N + M iterations, as running N + M
iterations from the zero-initialized buffer.  For a mutating update rule
the roundtrip fails, because pathtraceResume reloads the pristine host
geometry while a continuous session carries the device geometry mutated in
place by updateGeoms forward across iterations (see the counterexample). -/
theorem accumulation_resume_static_roundtrip (P : SessionParams)
    (h : ∀ g t, P.upd g t = g) (g0 : List Geom) (start N M : Nat) :
    renderSession P (start + N) M
        (g0, pathtraceResumeImage
          (renderSession P start N (g0, pathtraceInitImage P.pixelcount)).2) =
      renderSession P start (N + M) (g0, pathtraceInitImage P.pixelcount) ∧
    averagedImage (N + M)
        (renderSession P (start + N) M
          (g0, pathtraceResumeImage
            (renderSession P start N
              (g0, pathtraceInitImage P.pixelcount)).2)).2 =
      averagedImage (N + M)
        (renderSession P start (N + M)
          (g0, pathtraceInitImage P.pixelcount)).2 := by
  have hmain := renderSession_resume_static P h g0 N start M
    (pathtraceInitImage P.pixelcount)
  exact ⟨hmain, congrArg (fun s => averagedImage (N + M) s.2) hmain⟩

/-- Witness for the amended C8 theorem: the static session instance with
one pixel, resumed after 1 iteration for 1 further iteration. -/
theorem accumulation_resume_static_roundtrip_witness :
    (∀ g t, staticParams.upd g t = g) ∧
    (renderSession staticParams (1 + 1) 1
        ([], pathtraceResumeImage
          (renderSession staticParams 1 1
            ([], pathtraceInitImage staticParams.pixelcount)).2) =
      renderSession staticParams 1 (1 + 1)
        ([], pathtraceInitImage staticParams.pixelcount) ∧
    averagedImage (1 + 1)
        (renderSession staticParams (1 + 1) 1
          ([], pathtraceResumeImage
            (renderSession staticParams 1 1
              ([], pathtraceInitImage staticParams.pixelcount)).2)).2 =
      averagedImage (1 + 1)
        (renderSession staticParams 1 (1 + 1)
          ([], pathtraceInitImage staticParams.pixelcount)).2) :=
  ⟨fun _ _ => rfl,
   accumulation_resume_static_roundtrip staticParams (fun _ _ => rfl)
     [] 1 1 1⟩

/-- C9: evaluation of getMaterialId at a failing input.  For an
intersections array whose per-record material ids are [2, 1], the kernel
fills both key arrays with [2, 2]: every thread reads the material id of
record 0 through the unsubscripted pointer isecs->materialId, so the keys
do not agree with the per-element material identifiers [2, 1] and the
subsequent sort_by_key calls do not reorder by each element's material
identifier, contradicting the comment above the call site (Sort the paths
by: materialId). -/
theorem material_sort_key_bug :
    getMaterialId 2
        [⟨5, Vec3.zero, 2⟩, ⟨6, Vec3.zero, 1⟩] = ([2, 2], [2, 2]) ∧
    ([⟨5, Vec3.zero, 2⟩, ⟨6, Vec3.zero, 1⟩] :
        List ShadeableIntersection).map (fun s => s.materialId % 256) =
      [2, 1] := by
  refine ⟨by decide, by decide⟩

end PT
